import Mathlib

/-!
Shallow embedding of the vacation-interval consolidation service
(src/app/services/vacation.py, src/app/repository/vacation.py,
src/app/repository/employee.py, src/app/schema/vacation.py,
src/app/api/routes/vacation.py).

Calendar dates become `Int` (days since an arbitrary epoch), so
`timedelta(days=1)` becomes `1`.  The SQLAlchemy session becomes an explicit
state value `DB` threaded through every operation; a Python exception becomes
an `Except.error` paired with the unchanged state.  Vacation ids (UUIDs in the
source) become a `Nat` counter `DB.next_id` assigned at creation.
-/

/-- Row of the `employee` table (src/app/model: id plus the name columns used
by the search join). -/
structure Employee where
  id : Nat
  first_name : String
  last_name : String
deriving DecidableEq, Repr

/-- Row of the `vacation` table (src/app/model/vacation.py): id, owner
reference, `type` (0 = Unpaid, 1 = Paid), inclusive date bounds. -/
structure Vacation where
  id : Nat
  employee_id : Nat
  type : Nat
  start_date : Int
  end_date : Int
deriving DecidableEq, Repr

/-- The relational store: employee rows, vacation rows, and the next fresh
vacation id. -/
structure DB where
  employees : List Employee
  vacations : List Vacation
  next_id : Nat
deriving DecidableEq, Repr

/-- Pydantic schema `VacationBase` (src/app/schema/vacation.py): a fully
supplied candidate interval. -/
structure VacationBase where
  start_date : Int
  end_date : Int
  type : Nat
deriving DecidableEq, Repr

/-- Pydantic schema `VacationUpdate` (src/app/schema/vacation.py): every field
optional; `none` models a field the caller left unset. -/
structure VacationUpdate where
  start_date : Option Int
  end_date : Option Int
  type : Option Nat
deriving DecidableEq, Repr

/-- The dict `vacation_data.dict(exclude_unset=True)` handed to
`VacationRepository.patch`: only the present keys are written back. -/
structure UpdateDict where
  start_date : Option Int
  end_date : Option Int
  type : Option Nat
deriving DecidableEq, Repr

/-- Errors a service call can surface: the two `ValueError`s raised in
src/app/services/vacation.py and the Python `TypeError` raised when date
arithmetic meets `None`. -/
inductive ServiceError where
  | ownerNotFound
  | intervalNotFound
  | typeError
deriving DecidableEq, Repr

deriving instance DecidableEq for Except

/-- Comparison by `start_date`, the `order_by` key of
`get_overlapping_or_contiguous`. -/
def startLE (a b : Vacation) : Prop := a.start_date ≤ b.start_date

instance : DecidableRel startLE := fun a b => Int.decLe a.start_date b.start_date

instance : IsTotal Vacation startLE := ⟨fun a b => Int.le_total a.start_date b.start_date⟩

instance : IsTrans Vacation startLE := ⟨fun _ _ _ hab hbc => Int.le_trans hab hbc⟩

/-- The `ORDER BY start_date` of the mergeable-candidate query. -/
def sortByStart (l : List Vacation) : List Vacation := List.insertionSort startLE l

/-- The `or_` filter of `get_overlapping_or_contiguous`
(src/app/repository/vacation.py lines 176-189), clause for clause:
right overlap, left overlap, left adjacency, right adjacency. -/
def mergeableClause (s e : Int) (v : Vacation) : Bool :=
  (v.start_date ≤ e && v.end_date ≥ s)
    || (v.start_date ≥ s && v.start_date ≤ e)
    || (v.end_date == s - 1)
    || (v.start_date == e + 1)

/-- The `VacationModel.type == vacation_type` filter.  The service's update
path passes `vacation_data.type` straight through, which may be Python `None`;
SQLAlchemy then renders `type = NULL`, which no row satisfies, so the `none`
case is `false` for every row. -/
def typeMatches (t : Option Nat) (v : Vacation) : Bool :=
  match t with
  | some t0 => v.type == t0
  | none => false

namespace EmployeeRepository

/-- Modelled from the spec: `BaseRepository.get` (src/app/repository/base.py is
not in the source tree); spec section 6 gives the Employee Directory interface
as `get(employeeId) -> Employee?`, a point lookup returning the employee or
nothing. -/
def get (db : DB) (eid : Nat) : Option Employee :=
  db.employees.find? (fun emp => emp.id == eid)

end EmployeeRepository

namespace VacationRepository

/-- `_VacationRepository.get_by_id`: point lookup of a vacation row. -/
def get_by_id (db : DB) (vid : Nat) : Option Vacation :=
  db.vacations.find? (fun v => v.id == vid)

/-- Modelled from the spec: `BaseRepository.get` for vacations
(src/app/repository/base.py is not in the source tree); spec section 6 gives
the store interface `findById(id) -> Interval?`. -/
def get (db : DB) (vid : Nat) : Option Vacation :=
  db.vacations.find? (fun v => v.id == vid)

/-- `_VacationRepository.create`: insert a new row with a fresh id and return
it. -/
def create (db : DB) (obj_in : VacationBase) (employee_id : Nat) : DB × Vacation :=
  let v : Vacation :=
    ⟨db.next_id, employee_id, obj_in.type, obj_in.start_date, obj_in.end_date⟩
  ({ db with vacations := db.vacations ++ [v], next_id := db.next_id + 1 }, v)

/-- `_VacationRepository.delete`: remove the row with the given primary key and
return it, or return `none` leaving the store untouched. -/
def delete (db : DB) (vid : Nat) : DB × Option Vacation :=
  match get_by_id db vid with
  | some v =>
    ({ db with vacations := db.vacations.filter (fun w => w.id != vid) }, some v)
  | none => (db, none)

/-- Write the present keys of an `exclude_unset` dict onto a row (the
`setattr` loop of `_VacationRepository.patch`). -/
def apply_update (v : Vacation) (u : UpdateDict) : Vacation :=
  { v with
    start_date := u.start_date.getD v.start_date,
    end_date := u.end_date.getD v.end_date,
    type := u.type.getD v.type }

/-- `_VacationRepository.patch`: update the row with the given id in place and
return it, or return `none` if the id is absent. -/
def patch (db : DB) (vid : Nat) (obj_in : UpdateDict) : DB × Option Vacation :=
  match get_by_id db vid with
  | some v =>
    let v' := apply_update v obj_in
    ({ db with vacations := db.vacations.map (fun w => if w.id == vid then v' else w) },
     some v')
  | none => (db, none)

/-- `_VacationRepository.get_overlapping_or_contiguous`: filter the vacation
table by owner, type and the four-clause overlap/adjacency disjunction, ordered
by `start_date` ascending.  The type argument is `Option` because the service's
update path forwards a possibly-`None` value (see `typeMatches`). -/
def get_overlapping_or_contiguous (db : DB) (employee_id : Nat) (vacation_type : Option Nat)
    (start_date end_date : Int) : List Vacation :=
  sortByStart (db.vacations.filter (fun v =>
    v.employee_id == employee_id && typeMatches vacation_type v
      && mergeableClause start_date end_date v))

end VacationRepository

/-- The ORM back-reference `employee.vacations`: all vacation rows owned by the
employee. -/
def employeeVacations (db : DB) (emp : Employee) : List Vacation :=
  db.vacations.filter (fun v => v.employee_id == emp.id)

/-- Delete each listed id in turn (the `for vac in existing_vacations` loop of
the service merge branches). -/
def delete_all (db : DB) (ids : List Nat) : DB :=
  ids.foldl (fun d i => (VacationRepository.delete d i).1) db

namespace VacationService

/-- `_VacationService.create_vacation` (src/app/services/vacation.py lines
34-82): resolve the owner, fetch the mergeable set; if empty, insert the
candidate; otherwise take `min` of the candidate start and the first element's
start, `max` of the candidate end and the last element's end, delete every
fetched row, and insert the single merged interval. -/
def create_vacation (db : DB) (eid : Nat) (vd : VacationBase) :
    DB × Except ServiceError Vacation :=
  match EmployeeRepository.get db eid with
  | none => (db, Except.error ServiceError.ownerNotFound)
  | some emp =>
    match VacationRepository.get_overlapping_or_contiguous db eid (some vd.type)
        vd.start_date vd.end_date with
    | [] =>
      let r := VacationRepository.create db vd emp.id
      (r.1, Except.ok r.2)
    | m :: ms =>
      let new_start := min vd.start_date m.start_date
      let new_end := max vd.end_date (ms.getLastD m).end_date
      let db1 := delete_all db ((m :: ms).map (fun v => v.id))
      let r := VacationRepository.create db1 ⟨new_start, new_end, vd.type⟩ emp.id
      (r.1, Except.ok r.2)

/-- `_VacationService.update_vacation` (src/app/services/vacation.py lines
99-159): resolve the owner, require the vacation id among the owner's rows,
then fetch the mergeable set with the raw optional fields of the update
payload.  A `none` start or end date reaches `start_date - timedelta(days=1)` /
`end_date + timedelta(days=1)` while the filter is being built and raises
`TypeError`; a `none` type renders `type = NULL`, matching no row.  On a
non-empty mergeable set every fetched row is deleted — including, possibly, the
row being updated — and the merged bounds are patched onto the addressed id
(`patch` yields `none` if that id was just deleted). -/
def update_vacation (db : DB) (eid vid : Nat) (vd : VacationUpdate) :
    DB × Except ServiceError (Option Vacation) :=
  match EmployeeRepository.get db eid with
  | none => (db, Except.error ServiceError.ownerNotFound)
  | some emp =>
    if (employeeVacations db emp).any (fun v => v.id == vid) then
      match vd.start_date, vd.end_date with
      | some s, some e =>
        match VacationRepository.get_overlapping_or_contiguous db eid vd.type s e with
        | [] =>
          let r := VacationRepository.patch db vid ⟨vd.start_date, vd.end_date, vd.type⟩
          (r.1, Except.ok r.2)
        | m :: ms =>
          let new_start := min s m.start_date
          let new_end := max e (ms.getLastD m).end_date
          let db1 := delete_all db ((m :: ms).map (fun v => v.id))
          let r := VacationRepository.patch db1 vid ⟨some new_start, some new_end, vd.type⟩
          (r.1, Except.ok r.2)
      | _, _ => (db, Except.error ServiceError.typeError)
    else (db, Except.error ServiceError.intervalNotFound)

/-- `_VacationService.delete_vacation` (src/app/services/vacation.py lines
189-212): resolve the owner, look the vacation up by id alone (no ownership
check appears in the source), raise if absent, else delete it. -/
def delete_vacation (db : DB) (eid vid : Nat) : DB × Except ServiceError Unit :=
  match EmployeeRepository.get db eid with
  | none => (db, Except.error ServiceError.ownerNotFound)
  | some _ =>
    match VacationRepository.get db vid with
    | none => (db, Except.error ServiceError.intervalNotFound)
    | some _ => ((VacationRepository.delete db vid).1, Except.ok ())

end VacationService

/-- Overlap or one-day adjacency between two stored intervals, the relation of
the spec's section 3 antichain invariant. -/
def overlaps_or_adjacent (a b : Vacation) : Bool :=
  (a.start_date ≤ b.end_date && b.start_date ≤ a.end_date)
    || (a.end_date == b.start_date - 1)
    || (b.end_date == a.start_date - 1)

/-- Store invariant of spec section 3: for a fixed owner and type no two stored
intervals overlap or are one day apart. -/
def store_invariant (db : DB) : Prop :=
  db.vacations.Pairwise (fun a b =>
    a.employee_id = b.employee_id → a.type = b.type → overlaps_or_adjacent a b = false)

instance (db : DB) : Decidable (store_invariant db) := by
  unfold store_invariant
  exact List.instDecidablePairwise db.vacations

/-- Case-insensitive `startsWith` on character lists (helper for `ilike`). -/
def char_list_starts_with : List Char → List Char → Bool
  | [], _ => true
  | _ :: _, [] => false
  | p :: ps, h :: hs => p == h && char_list_starts_with ps hs

/-- Substring test on character lists (helper for `ilike`). -/
def char_list_has_sub (pat : List Char) : List Char → Bool
  | [] => char_list_starts_with pat []
  | h :: hs => char_list_starts_with pat (h :: hs) || char_list_has_sub pat hs

/-- SQL `column ILIKE '%pat%'`: case-insensitive substring match. -/
def ilike_contains (column pat : String) : Bool :=
  char_list_has_sub pat.toLower.toList column.toLower.toList

namespace VacationRepository

/-- `_VacationRepository.search`: conjunction of the supplied filters; a name
filter forces an inner join with the employee table. -/
def search (db : DB) (start_date end_date : Option Int) (vacation_type : Option Nat)
    (employee_id : Option Nat) (first_name last_name : Option String) : List Vacation :=
  let base := fun (v : Vacation) =>
    (match start_date with | some d => v.start_date == d | none => true)
      && (match end_date with | some d => v.end_date == d | none => true)
      && (match vacation_type with | some t0 => v.type == t0 | none => true)
      && (match employee_id with | some i => v.employee_id == i | none => true)
  match first_name, last_name with
  | none, none => db.vacations.filter base
  | _, _ =>
    db.vacations.filter (fun v =>
      match db.employees.find? (fun emp => emp.id == v.employee_id) with
      | none => false
      | some emp =>
        base v
          && (match first_name with | some s => ilike_contains emp.first_name s | none => true)
          && (match last_name with | some s => ilike_contains emp.last_name s | none => true))

end VacationRepository

namespace VacationService

/-- `_VacationService.search_vacations`: forwards the filters to the
repository. -/
def search_vacations (db : DB) (start_date end_date : Option Int) (type : Option Nat)
    (employee_id : Option Nat) (first_name last_name : Option String) : List Vacation :=
  VacationRepository.search db start_date end_date type employee_id first_name last_name

end VacationService

/-- Parameter names of `_VacationService.search_vacations` after `self`
(src/app/services/vacation.py line 162); none of them has a default value. -/
def search_vacations_params : List String :=
  ["session", "start_date", "end_date", "type", "employee_id", "first_name", "last_name"]

/-- Keyword names the HTTP handler `search_vacations` uses when it calls
`VacationService.search_vacations` (src/app/api/routes/vacation.py lines
28-35). -/
def search_route_call_keywords : List String :=
  ["session", "start_date", "end_date", "vacation_type", "employee_id", "first_name", "last_name"]

/-- Python binding of an all-keyword call site against a parameter list with no
defaults: `TypeError` is raised iff some keyword is not a parameter name
(unexpected keyword argument) or some parameter is left unbound (missing
required argument). -/
def py_kwargs_type_error (params kwargs : List String) : Bool :=
  kwargs.any (fun k => !params.contains k) || params.any (fun p => !kwargs.contains p)

namespace VacationRoutes

/-- HTTP handler `search_vacations` (src/app/api/routes/vacation.py): the call
into the service layer is bound first; only if binding succeeds would the
service (and through it the repository) run. -/
def search_vacations_route (db : DB) (start_date end_date : Option Int) (type : Option Nat)
    (employee_id : Option Nat) (first_name last_name : Option String) :
    Except ServiceError (List Vacation) :=
  if py_kwargs_type_error search_vacations_params search_route_call_keywords then
    Except.error ServiceError.typeError
  else
    Except.ok (VacationService.search_vacations db start_date end_date type employee_id
      first_name last_name)

end VacationRoutes

/-!
Theorems for the claims.
-/

/-- C6: a `create_vacation` call whose employee id resolves to no existing
employee fails with the owner-not-found error kind and leaves the store
unchanged. -/
theorem create_vacation_unknown_owner (db : DB) (eid : Nat) (vd : VacationBase)
    (h : ∀ emp ∈ db.employees, emp.id ≠ eid) :
    VacationService.create_vacation db eid vd = (db, Except.error ServiceError.ownerNotFound) := by
  have hget : EmployeeRepository.get db eid = none := by
    apply List.find?_eq_none.mpr
    intro emp hmem
    simpa using h emp hmem
  unfold VacationService.create_vacation
  rw [hget]

/-- Witness for C6 at a concrete store: employee 2 does not exist. -/
theorem create_vacation_unknown_owner_witness :
    VacationService.create_vacation (⟨[⟨1, "a", "b"⟩], [], 0⟩ : DB) 2 ⟨0, 1, 1⟩ =
      ((⟨[⟨1, "a", "b"⟩], [], 0⟩ : DB), Except.error ServiceError.ownerNotFound) :=
  create_vacation_unknown_owner ⟨[⟨1, "a", "b"⟩], [], 0⟩ 2 ⟨0, 1, 1⟩ (by decide)

/-- C7 counterexample: employees 1 and 2 exist, vacation 10 belongs to
employee 2, yet `delete_vacation` addressed to employee 1 succeeds and deletes
employee 2's vacation instead of failing with the interval-not-found error. -/
theorem delete_vacation_ownership_not_checked :
    VacationService.delete_vacation
        (⟨[⟨1, "a", "b"⟩, ⟨2, "c", "d"⟩], [⟨10, 2, 1, 0, 5⟩], 11⟩ : DB) 1 10 =
      ((⟨[⟨1, "a", "b"⟩, ⟨2, "c", "d"⟩], [], 11⟩ : DB), Except.ok ()) := by
  decide

/-- C7 amended: deleting an absent id directly on the repository returns `none`
and leaves the store unchanged, and the owner-scoped `delete_vacation` with an
existing employee fails with the interval-not-found error exactly when the
vacation id resolves to no stored interval at all — ownership by the addressed
employee is never checked. -/
theorem delete_duality_amended (db : DB) (eid vid : Nat) :
    (VacationRepository.get_by_id db vid = none →
      VacationRepository.delete db vid = (db, none))
    ∧ ((∃ emp ∈ db.employees, emp.id = eid) →
      VacationRepository.get db vid = none →
      VacationService.delete_vacation db eid vid =
        (db, Except.error ServiceError.intervalNotFound)) := by
  constructor
  · intro h
    unfold VacationRepository.delete
    rw [h]
  · rintro ⟨emp, hmem, hid⟩ hnone
    have hsome : (EmployeeRepository.get db eid).isSome := by
      unfold EmployeeRepository.get
      rw [List.find?_isSome]
      exact ⟨emp, hmem, by simpa using hid⟩
    obtain ⟨x, hx⟩ := Option.isSome_iff_exists.mp hsome
    unfold VacationService.delete_vacation
    rw [hx, hnone]

/-- Witness for C7 amended at a concrete store: employee 1 exists and vacation
99 is stored nowhere. -/
theorem delete_duality_amended_witness :
    (VacationRepository.get_by_id (⟨[⟨1, "a", "b"⟩], [⟨10, 1, 1, 0, 5⟩], 11⟩ : DB) 99 = none →
      VacationRepository.delete (⟨[⟨1, "a", "b"⟩], [⟨10, 1, 1, 0, 5⟩], 11⟩ : DB) 99 =
        ((⟨[⟨1, "a", "b"⟩], [⟨10, 1, 1, 0, 5⟩], 11⟩ : DB), none))
    ∧ ((∃ emp ∈ (⟨[⟨1, "a", "b"⟩], [⟨10, 1, 1, 0, 5⟩], 11⟩ : DB).employees, emp.id = 1) →
      VacationRepository.get (⟨[⟨1, "a", "b"⟩], [⟨10, 1, 1, 0, 5⟩], 11⟩ : DB) 99 = none →
      VacationService.delete_vacation (⟨[⟨1, "a", "b"⟩], [⟨10, 1, 1, 0, 5⟩], 11⟩ : DB) 1 99 =
        ((⟨[⟨1, "a", "b"⟩], [⟨10, 1, 1, 0, 5⟩], 11⟩ : DB),
         Except.error ServiceError.intervalNotFound)) :=
  delete_duality_amended ⟨[⟨1, "a", "b"⟩], [⟨10, 1, 1, 0, 5⟩], 11⟩ 1 99

/-- C8: with exactly one stored Paid interval `[1,4]` for employee 1, creating
Paid `[5,10]` consolidates the store to exactly one Paid `[1,10]`; creating
Paid `[5,10]` again returns `[1,10]` and leaves the stored set of
`(type, start, end)` ranges unchanged at that single interval. -/
theorem create_vacation_idempotent_consolidation :
    VacationService.create_vacation (⟨[⟨1, "a", "b"⟩], [⟨0, 1, 1, 1, 4⟩], 1⟩ : DB) 1 ⟨5, 10, 1⟩ =
      ((⟨[⟨1, "a", "b"⟩], [⟨1, 1, 1, 1, 10⟩], 2⟩ : DB), Except.ok ⟨1, 1, 1, 1, 10⟩)
    ∧ VacationService.create_vacation (⟨[⟨1, "a", "b"⟩], [⟨1, 1, 1, 1, 10⟩], 2⟩ : DB) 1 ⟨5, 10, 1⟩ =
      ((⟨[⟨1, "a", "b"⟩], [⟨2, 1, 1, 1, 10⟩], 3⟩ : DB), Except.ok ⟨2, 1, 1, 1, 10⟩)
    ∧ ((⟨[⟨1, "a", "b"⟩], [⟨2, 1, 1, 1, 10⟩], 3⟩ : DB)).vacations.map
        (fun v => (v.type, v.start_date, v.end_date)) =
      ((⟨[⟨1, "a", "b"⟩], [⟨1, 1, 1, 1, 10⟩], 2⟩ : DB)).vacations.map
        (fun v => (v.type, v.start_date, v.end_date)) := by
  decide

/-- C3 failing input: the store `{Paid [1,5], Paid [10,12]}` for employee 1
satisfies the antichain invariant; updating vacation 1 with start 6 and end 7
while leaving `type` unset succeeds (the `type = NULL` filter finds no
mergeable row) and leaves `Paid [1,5]` and `Paid [6,7]` stored — one day apart,
violating the invariant. -/
theorem update_vacation_breaks_invariant :
    store_invariant (⟨[⟨1, "a", "b"⟩], [⟨0, 1, 1, 1, 5⟩, ⟨1, 1, 1, 10, 12⟩], 2⟩ : DB)
    ∧ (VacationService.update_vacation
        (⟨[⟨1, "a", "b"⟩], [⟨0, 1, 1, 1, 5⟩, ⟨1, 1, 1, 10, 12⟩], 2⟩ : DB) 1 1
        ⟨some 6, some 7, none⟩).2 = Except.ok (some ⟨1, 1, 1, 6, 7⟩)
    ∧ ¬ store_invariant (VacationService.update_vacation
        (⟨[⟨1, "a", "b"⟩], [⟨0, 1, 1, 1, 5⟩, ⟨1, 1, 1, 10, 12⟩], 2⟩ : DB) 1 1
        ⟨some 6, some 7, none⟩).1 := by
  decide

/-- C4 failing input: employee 1 owns the single Paid interval `[1,5]` with
vacation id 0; a fully supplied update of that vacation to Paid `[1,6]` puts
the record itself into the mergeable set, deletes it, and the subsequent patch
of the now-absent id writes nothing — the store ends with no interval at all
and the call returns `none` instead of the merged interval `[1,6]`. -/
theorem update_vacation_loses_interval :
    VacationService.update_vacation (⟨[⟨1, "a", "b"⟩], [⟨0, 1, 1, 1, 5⟩], 1⟩ : DB) 1 0
        ⟨some 1, some 6, some 1⟩ =
      ((⟨[⟨1, "a", "b"⟩], [], 1⟩ : DB), Except.ok none) := by
  decide

/-- C5 failing input: employee 1 owns Paid `[1,5]` with vacation id 0; an
update supplying only `end_date = 7` crashes with `TypeError` (the unset start
date reaches `start_date - timedelta(days=1)` as `None`) instead of resolving
the unset fields from the stored interval and succeeding. -/
theorem update_vacation_partial_not_resolved :
    VacationService.update_vacation (⟨[⟨1, "a", "b"⟩], [⟨0, 1, 1, 1, 5⟩], 1⟩ : DB) 1 0
        ⟨none, some 7, none⟩ =
      ((⟨[⟨1, "a", "b"⟩], [⟨0, 1, 1, 1, 5⟩], 1⟩ : DB), Except.error ServiceError.typeError) := by
  decide

/-- C10: for every input, the HTTP search handler raises `TypeError` while
binding the call to `VacationService.search_vacations` — the keyword
`vacation_type` is not among the service method's parameters and the `type`
parameter is left unbound — so the endpoint never returns a result list. -/
theorem search_route_always_type_error (db : DB) (start_date end_date : Option Int)
    (type : Option Nat) (employee_id : Option Nat) (first_name last_name : Option String) :
    VacationRoutes.search_vacations_route db start_date end_date type employee_id
        first_name last_name = Except.error ServiceError.typeError := by
  rfl

/-- C2: against a store whose intervals satisfy the section-3 validity
invariant `start_date ≤ end_date`, the mergeable-candidate query returns
exactly the stored intervals of the queried owner and type that range-overlap
the query window or touch it at one day's distance, ordered by start date
ascending.  (The query's redundant second clause — start inside the window —
is absorbed by the overlap clause once intervals are valid.) -/
theorem get_overlapping_or_contiguous_spec (db : DB) (eid t : Nat) (s e : Int)
    (hvalid : ∀ v ∈ db.vacations, v.start_date ≤ v.end_date) (hse : s ≤ e) :
    (∀ v, v ∈ VacationRepository.get_overlapping_or_contiguous db eid (some t) s e ↔
      (v ∈ db.vacations ∧ v.employee_id = eid ∧ v.type = t ∧
        ((v.start_date ≤ e ∧ s ≤ v.end_date) ∨ v.end_date = s - 1 ∨ v.start_date = e + 1)))
    ∧ (VacationRepository.get_overlapping_or_contiguous db eid (some t) s e).Sorted startLE := by
  constructor
  · intro v
    have hperm :
        v ∈ VacationRepository.get_overlapping_or_contiguous db eid (some t) s e ↔
          v ∈ db.vacations.filter (fun v =>
            v.employee_id == eid && typeMatches (some t) v && mergeableClause s e v) :=
      List.mem_insertionSort startLE
    rw [hperm, List.mem_filter]
    constructor
    · rintro ⟨hv, hp⟩
      have hval := hvalid v hv
      simp only [Bool.and_eq_true, Bool.or_eq_true, beq_iff_eq, typeMatches, mergeableClause,
        decide_eq_true_eq] at hp
      obtain ⟨⟨he, ht⟩, hc⟩ := hp
      exact ⟨hv, he, ht, by omega⟩
    · rintro ⟨hv, he, ht, hc⟩
      have hval := hvalid v hv
      refine ⟨hv, ?_⟩
      simp only [Bool.and_eq_true, Bool.or_eq_true, beq_iff_eq, typeMatches, mergeableClause,
        decide_eq_true_eq]
      exact ⟨⟨he, ht⟩, by omega⟩
  · exact List.sorted_insertionSort startLE _

/-- Witness for C2 at a concrete store and query. -/
theorem get_overlapping_or_contiguous_spec_witness :
    (∀ v, v ∈ VacationRepository.get_overlapping_or_contiguous
        (⟨[⟨1, "a", "b"⟩], [⟨0, 1, 1, 1, 4⟩, ⟨1, 1, 1, 12, 14⟩, ⟨2, 1, 0, 6, 7⟩], 3⟩ : DB)
        1 (some 1) 5 10 ↔
      (v ∈ (⟨[⟨1, "a", "b"⟩], [⟨0, 1, 1, 1, 4⟩, ⟨1, 1, 1, 12, 14⟩, ⟨2, 1, 0, 6, 7⟩], 3⟩ : DB).vacations
        ∧ v.employee_id = 1 ∧ v.type = 1 ∧
        ((v.start_date ≤ 10 ∧ 5 ≤ v.end_date) ∨ v.end_date = 5 - 1 ∨ v.start_date = 10 + 1)))
    ∧ (VacationRepository.get_overlapping_or_contiguous
        (⟨[⟨1, "a", "b"⟩], [⟨0, 1, 1, 1, 4⟩, ⟨1, 1, 1, 12, 14⟩, ⟨2, 1, 0, 6, 7⟩], 3⟩ : DB)
        1 (some 1) 5 10).Sorted startLE :=
  get_overlapping_or_contiguous_spec
    ⟨[⟨1, "a", "b"⟩], [⟨0, 1, 1, 1, 4⟩, ⟨1, 1, 1, 12, 14⟩, ⟨2, 1, 0, 6, 7⟩], 3⟩
    1 1 5 10 (by decide) (by decide)

/-- Repository delete sends the store's vacation list to the rows whose id
differs, in both the found and the not-found branch. -/
theorem delete_state (db : DB) (vid : Nat) :
    (VacationRepository.delete db vid).1 =
      { db with vacations := db.vacations.filter (fun w => w.id != vid) } := by
  unfold VacationRepository.delete
  cases hfind : VacationRepository.get_by_id db vid with
  | some v => rfl
  | none =>
    have hf : db.vacations.filter (fun w => w.id != vid) = db.vacations :=
      List.filter_eq_self.mpr (fun a ha => by
        have hne := List.find?_eq_none.mp hfind a ha
        simpa using hne)
    simp only [hf]

/-- Closed form of the service's delete loop: one filter dropping every listed
id; employees and the id counter are untouched. -/
theorem delete_all_state (db : DB) (ids : List Nat) :
    delete_all db ids =
      { db with vacations := db.vacations.filter (fun v => ids.all (fun i => v.id != i)) } := by
  induction ids generalizing db with
  | nil =>
    have hf : db.vacations.filter (fun v => ([] : List Nat).all (fun i => v.id != i)) =
        db.vacations :=
      List.filter_eq_self.mpr (fun a _ => by simp)
    simp only [delete_all, List.foldl_nil, hf]
  | cons i is ih =>
    have step : delete_all db (i :: is) = delete_all (VacationRepository.delete db i).1 is := rfl
    rw [step, ih, delete_state]
    simp only [List.filter_filter]
    congr 1
    refine List.filter_congr ?_
    intro a _
    simp [Bool.and_comm]

/-- C1: created for an existing owner, a candidate with an empty mergeable set
is persisted as a new interval carrying the candidate's owner, type and bounds
and returned; with a non-empty mergeable set (`m :: ms`, already ordered by
start ascending) every retrieved interval is deleted and exactly one new
interval is created and returned, whose start is `min` of the candidate start
and the first element's start and whose end is `max` of the candidate end and
the last element's end. -/
theorem create_vacation_spec (db : DB) (eid : Nat) (emp : Employee) (vd : VacationBase)
    (h : EmployeeRepository.get db eid = some emp) :
    emp.id = eid
    ∧ (VacationRepository.get_overlapping_or_contiguous db eid (some vd.type)
        vd.start_date vd.end_date = [] →
      VacationService.create_vacation db eid vd =
        ({ db with
            vacations := db.vacations ++
              [⟨db.next_id, emp.id, vd.type, vd.start_date, vd.end_date⟩],
            next_id := db.next_id + 1 },
         Except.ok ⟨db.next_id, emp.id, vd.type, vd.start_date, vd.end_date⟩))
    ∧ (∀ m ms, VacationRepository.get_overlapping_or_contiguous db eid (some vd.type)
        vd.start_date vd.end_date = m :: ms →
      VacationService.create_vacation db eid vd =
        ({ db with
            vacations := db.vacations.filter (fun v => (m :: ms).all (fun w => v.id != w.id)) ++
              [⟨db.next_id, emp.id, vd.type, min vd.start_date m.start_date,
                max vd.end_date (ms.getLastD m).end_date⟩],
            next_id := db.next_id + 1 },
         Except.ok ⟨db.next_id, emp.id, vd.type, min vd.start_date m.start_date,
            max vd.end_date (ms.getLastD m).end_date⟩)) := by
  have hid : emp.id = eid := by
    have hp := List.find?_some h
    simpa using hp
  refine ⟨hid, ?_, ?_⟩
  · intro hM
    simp only [VacationService.create_vacation, h, hM]
    rfl
  · intro m ms hM
    have hall : ∀ (l : List Vacation) (v : Vacation),
        ((l.map (fun w => w.id)).all fun i => v.id != i) =
          (l.all fun w => v.id != w.id) := by
      intro l v
      induction l with
      | nil => rfl
      | cons x xs ih => simp only [List.map_cons, List.all_cons, ih]
    simp only [VacationService.create_vacation, h, hM, delete_all_state, hall]
    rfl

/-- Witness for C1: a store with employee 1 owning Paid `[1,4]`; both the
empty-set branch (query far away would be empty — here we witness via the
non-empty branch) and the merge branch are instantiated at this input. -/
theorem create_vacation_spec_witness :
    (1 : Nat) = 1
    ∧ (VacationRepository.get_overlapping_or_contiguous
        (⟨[⟨1, "a", "b"⟩], [⟨0, 1, 1, 1, 4⟩], 1⟩ : DB) 1 (some 1) 5 10 = [] →
      VacationService.create_vacation (⟨[⟨1, "a", "b"⟩], [⟨0, 1, 1, 1, 4⟩], 1⟩ : DB) 1 ⟨5, 10, 1⟩ =
        ({ (⟨[⟨1, "a", "b"⟩], [⟨0, 1, 1, 1, 4⟩], 1⟩ : DB) with
            vacations := (⟨[⟨1, "a", "b"⟩], [⟨0, 1, 1, 1, 4⟩], 1⟩ : DB).vacations ++
              [⟨(⟨[⟨1, "a", "b"⟩], [⟨0, 1, 1, 1, 4⟩], 1⟩ : DB).next_id, 1, 1, 5, 10⟩],
            next_id := (⟨[⟨1, "a", "b"⟩], [⟨0, 1, 1, 1, 4⟩], 1⟩ : DB).next_id + 1 },
         Except.ok ⟨(⟨[⟨1, "a", "b"⟩], [⟨0, 1, 1, 1, 4⟩], 1⟩ : DB).next_id, 1, 1, 5, 10⟩))
    ∧ (∀ m ms, VacationRepository.get_overlapping_or_contiguous
        (⟨[⟨1, "a", "b"⟩], [⟨0, 1, 1, 1, 4⟩], 1⟩ : DB) 1 (some 1) 5 10 = m :: ms →
      VacationService.create_vacation (⟨[⟨1, "a", "b"⟩], [⟨0, 1, 1, 1, 4⟩], 1⟩ : DB) 1 ⟨5, 10, 1⟩ =
        ({ (⟨[⟨1, "a", "b"⟩], [⟨0, 1, 1, 1, 4⟩], 1⟩ : DB) with
            vacations := (⟨[⟨1, "a", "b"⟩], [⟨0, 1, 1, 1, 4⟩], 1⟩ : DB).vacations.filter
                (fun v => (m :: ms).all (fun w => v.id != w.id)) ++
              [⟨(⟨[⟨1, "a", "b"⟩], [⟨0, 1, 1, 1, 4⟩], 1⟩ : DB).next_id, 1, 1, min 5 m.start_date,
                max 10 (ms.getLastD m).end_date⟩],
            next_id := (⟨[⟨1, "a", "b"⟩], [⟨0, 1, 1, 1, 4⟩], 1⟩ : DB).next_id + 1 },
         Except.ok ⟨(⟨[⟨1, "a", "b"⟩], [⟨0, 1, 1, 1, 4⟩], 1⟩ : DB).next_id, 1, 1,
            min 5 m.start_date, max 10 (ms.getLastD m).end_date⟩)) :=
  create_vacation_spec ⟨[⟨1, "a", "b"⟩], [⟨0, 1, 1, 1, 4⟩], 1⟩ 1 ⟨1, "a", "b"⟩ ⟨5, 10, 1⟩ (by decide)

/-- The reference merge-bound computation of the service code
(src/app/services/vacation.py lines 64-66): `min` of the candidate start and
the first retrieved interval's start, `max` of the candidate end and the last
retrieved interval's end. -/
def ref_merge_bounds (cs ce : Int) : List Vacation → Option (Int × Int)
  | [] => none
  | m :: ms => some (min cs m.start_date, max ce (ms.getLastD m).end_date)

/-- Modelled from the spec: the robust variant of section 9, which reduces
`min` and `max` over the entire mergeable set plus the new candidate rather
than trusting first/last positions. -/
def robust_merge_bounds (cs ce : Int) : List Vacation → Option (Int × Int)
  | [] => none
  | m :: ms => some (((m :: ms).map (fun v => v.start_date)).foldl min cs,
      ((m :: ms).map (fun v => v.end_date)).foldl max ce)

/-- Bridge from the boolean overlap/adjacency test to its propositional
reading. -/
theorem overlaps_or_adjacent_eq_false_iff (a b : Vacation) :
    overlaps_or_adjacent a b = false ↔
      ¬ ((a.start_date ≤ b.end_date ∧ b.start_date ≤ a.end_date) ∨
        a.end_date = b.start_date - 1 ∨ b.end_date = a.start_date - 1) := by
  rw [Bool.eq_false_iff]
  simp only [ne_eq, overlaps_or_adjacent, Bool.or_eq_true, Bool.and_eq_true,
    decide_eq_true_eq, beq_iff_eq]
  rw [or_assoc]

/-- Folding `min` over a nonempty ascending list keeps only the head. -/
theorem foldl_min_head (l : List Int) : ∀ (c : Int) (hl : l ≠ []), l.Sorted (· ≤ ·) →
    l.foldl min c = min c (l.head hl) := by
  induction l with
  | nil => intro c hl _; exact absurd rfl hl
  | cons x xs ih =>
    intro c _ hs
    cases xs with
    | nil => rfl
    | cons y ys =>
      have hxy : x ≤ y := (List.sorted_cons.mp hs).1 y (List.mem_cons_self y ys)
      have hs' : (y :: ys).Sorted (· ≤ ·) := (List.sorted_cons.mp hs).2
      have hrec := ih (min c x) (by simp) hs'
      calc (x :: y :: ys).foldl min c = (y :: ys).foldl min (min c x) := rfl
        _ = min (min c x) ((y :: ys).head (by simp)) := hrec
        _ = min c (min x y) := min_assoc c x y
        _ = min c x := by rw [min_eq_left hxy]

/-- Folding `max` over a nonempty ascending list keeps only the last
element. -/
theorem foldl_max_getLast (l : List Int) : ∀ (c : Int) (hl : l ≠ []), l.Sorted (· ≤ ·) →
    l.foldl max c = max c (l.getLast hl) := by
  induction l with
  | nil => intro c hl _; exact absurd rfl hl
  | cons x xs ih =>
    intro c hl hs
    cases xs with
    | nil => rfl
    | cons y ys =>
      have hs' : (y :: ys).Sorted (· ≤ ·) := (List.sorted_cons.mp hs).2
      have hrec := ih (max c x) (by simp) hs'
      have hxl : x ≤ (y :: ys).getLast (by simp) :=
        (List.sorted_cons.mp hs).1 _ (List.getLast_mem (by simp))
      calc (x :: y :: ys).foldl max c = (y :: ys).foldl max (max c x) := rfl
        _ = max (max c x) ((y :: ys).getLast (by simp)) := hrec
        _ = max c (max x ((y :: ys).getLast (by simp))) := max_assoc c x _
        _ = max c ((y :: ys).getLast (by simp)) := by rw [max_eq_right hxl]
        _ = max c ((x :: y :: ys).getLast hl) := rfl

/-- C9: on a mergeable set that is sorted by start ascending and satisfies the
section-3 store invariants — each interval valid (`start ≤ end`) and pairwise
neither overlapping nor one day apart — the code's first/last merge-bound
computation coincides with the robust reduction of `min`/`max` over the entire
set plus the candidate. -/
theorem ref_merge_bounds_eq_robust (cs ce : Int) (M : List Vacation)
    (hsorted : M.Sorted startLE)
    (hvalid : ∀ v ∈ M, v.start_date ≤ v.end_date)
    (hanti : M.Pairwise (fun a b => overlaps_or_adjacent a b = false)) :
    ref_merge_bounds cs ce M = robust_merge_bounds cs ce M := by
  cases M with
  | nil => rfl
  | cons m ms =>
    have hstarts : ((m :: ms).map (fun v => v.start_date)).Sorted (· ≤ ·) :=
      List.pairwise_map.mpr hsorted
    have hends : ((m :: ms).map (fun v => v.end_date)).Sorted (· ≤ ·) := by
      refine List.pairwise_map.mpr ?_
      have hcomb := List.Pairwise.and hsorted hanti
      refine List.Pairwise.imp_of_mem ?_ hcomb
      intro a b ha hb hr
      have hva := hvalid a ha
      have hvb := hvalid b hb
      have h1 : a.start_date ≤ b.start_date := hr.1
      have h2 := (overlaps_or_adjacent_eq_false_iff a b).mp hr.2
      omega
    show some (min cs m.start_date, max ce (ms.getLastD m).end_date) =
      some (((m :: ms).map (fun v => v.start_date)).foldl min cs,
        ((m :: ms).map (fun v => v.end_date)).foldl max ce)
    rw [foldl_min_head ((m :: ms).map (fun v => v.start_date)) cs (by simp) hstarts,
      foldl_max_getLast ((m :: ms).map (fun v => v.end_date)) ce (by simp) hends,
      List.head_map, List.getLast_map, List.getLast_eq_getLastD, List.head_cons]

/-- Witness for C9: a sorted, valid, non-overlapping, non-adjacent two-element
mergeable set. -/
theorem ref_merge_bounds_eq_robust_witness :
    ref_merge_bounds 5 6 [⟨0, 1, 1, 1, 4⟩, ⟨1, 1, 1, 7, 9⟩] =
      robust_merge_bounds 5 6 [⟨0, 1, 1, 1, 4⟩, ⟨1, 1, 1, 7, 9⟩] :=
  ref_merge_bounds_eq_robust 5 6 [⟨0, 1, 1, 1, 4⟩, ⟨1, 1, 1, 7, 9⟩]
    (by decide) (by decide) (by decide)
